import Mathlib

/-!
Ledger and session handlers of `src/server.js`.

A shallow embedding of the Express handlers of `src/server.js`.

Modelling conventions
* A JavaScript `Number` is an exact rational (`ℚ`): no rounding, no overflow.
  The only operation of the handlers that can leave the finite numbers from
  finite operands is the division `amount / btcPrice` in `/api/buy-btc` when
  `btcPrice` is `0`; that case is a separate outcome (`Outcome.nonFinite`).
* Request bodies carry numbers where the handlers do arithmetic and strings
  where they expect strings.
* `new Date()` is the argument `now`.
* The persistence layer, `bcrypt` and `jsonwebtoken` are external: a ledger
  handler is modelled from the point where `User.findById` has produced the
  user document, `user.save()` stores the document it is given, and
  `bcrypt.hash`, `jwt.sign`, `jwt.verify` are function arguments.  The
  `catch` branches (status 500) are reached only when one of those external
  calls throws.
-/

namespace Bis

/-! ## Data model (`userSchema`, server.js 22-35) -/

/-- The `enum` of the `type` field of a transaction. -/
inductive TxType
  | deposit
  | withdraw
  | buy
  | sell
  deriving DecidableEq, Repr

/-- An element of `transactions`; `btcAmount` and `price` are absent (`none`)
when the handler does not supply them. -/
structure Transaction where
  type : TxType
  amount : ℚ
  btcAmount : Option ℚ
  price : Option ℚ
  date : Nat
  deriving DecidableEq

/-- A user document. `balance` and `btcAmount` are plain numbers: the schema
declares no minimum. -/
structure User where
  _id : Nat
  name : String
  email : String
  password : String
  balance : ℚ
  btcAmount : ℚ
  transactions : List Transaction
  deriving DecidableEq

/-- The JSON bodies the handlers send. -/
inductive Body
  | message (text : String)
  | balance (balance : ℚ)
  | holdings (balance : ℚ) (btcAmount : ℚ)
  | token (token : String)
  deriving DecidableEq

/-- A response: status code (`res.json` alone sends 200) and body. -/
structure Response where
  status : Nat
  body : Body
  deriving DecidableEq

/-- What a ledger handler does to one user document: the response it sends
together with the document as stored afterwards, or the computation leaves the
finite numbers. -/
inductive Outcome
  | responded (res : Response) (stored : User)
  | nonFinite
  deriving DecidableEq

/-- Status code of the response, when there is one. -/
def Outcome.status : Outcome → Option Nat
  | .responded res _ => some res.status
  | .nonFinite => none

/-- The stored document after the handler, when there is one. -/
def Outcome.stored : Outcome → Option User
  | .responded _ u => some u
  | .nonFinite => none

/-! ## Ledger handlers (server.js 128-228) -/

/-- `app.post('/api/deposit')`, server.js 128-145. -/
def deposit (now : Nat) (amount : ℚ) (user : User) : Outcome :=
  let user1 := { user with balance := user.balance + amount }
  let user2 := { user1 with
    transactions := user1.transactions ++
      [{ type := .deposit, amount := amount, btcAmount := none, price := none, date := now }] }
  .responded ⟨200, .balance user2.balance⟩ user2

/-- `app.post('/api/withdraw')`, server.js 147-168. -/
def withdraw (now : Nat) (amount : ℚ) (user : User) : Outcome :=
  if user.balance < amount then
    .responded ⟨400, .message "Insufficient funds"⟩ user
  else
    let user1 := { user with balance := user.balance - amount }
    let user2 := { user1 with
      transactions := user1.transactions ++
        [{ type := .withdraw, amount := amount, btcAmount := none, price := none, date := now }] }
    .responded ⟨200, .balance user2.balance⟩ user2

/-- `app.post('/api/buy-btc')`, server.js 170-198. -/
def buyBtc (now : Nat) (amount btcPrice : ℚ) (user : User) : Outcome :=
  if user.balance < amount then
    .responded ⟨400, .message "Insufficient funds"⟩ user
  else if btcPrice = 0 then
    .nonFinite
  else
    let btcAmount := amount / btcPrice
    let user1 := { user with balance := user.balance - amount }
    let user2 := { user1 with btcAmount := user1.btcAmount + btcAmount }
    let user3 := { user2 with
      transactions := user2.transactions ++
        [{ type := .buy, amount := amount, btcAmount := some btcAmount,
           price := some btcPrice, date := now }] }
    .responded ⟨200, .holdings user3.balance user3.btcAmount⟩ user3

/-- `app.post('/api/sell-btc')`, server.js 200-228. -/
def sellBtc (now : Nat) (btcAmount btcPrice : ℚ) (user : User) : Outcome :=
  if user.btcAmount < btcAmount then
    .responded ⟨400, .message "Insufficient BTC"⟩ user
  else
    let amount := btcAmount * btcPrice
    let user1 := { user with balance := user.balance + amount }
    let user2 := { user1 with btcAmount := user1.btcAmount - btcAmount }
    let user3 := { user2 with
      transactions := user2.transactions ++
        [{ type := .sell, amount := amount, btcAmount := some btcAmount,
           price := some btcPrice, date := now }] }
    .responded ⟨200, .holdings user3.balance user3.btcAmount⟩ user3

/-- `user.save()` of a new document: the store gains the document, unless the
unique index on `email` refuses it, in which case the call throws (`none`).
Documents are taken to pass the validation of their field values. -/
def save (store : List User) (user : User) : Option (List User) :=
  if store.any (fun u => u.email = user.email) then none else some (store ++ [user])

/-- The decoded payload `jwt.verify` hands to its callback. -/
structure Payload where
  userId : Nat
  iat : Nat
  exp : Nat
  deriving DecidableEq

/-- The `err` of the `jwt.verify` callback. -/
inductive JwtError
  | invalid
  | expired
  deriving DecidableEq

/-- What the middleware does with a request: it sends a bare status, or it
sets `req.user` and calls `next()`. -/
inductive AuthResult
  | sendStatus (code : Nat)
  | next (user : Payload)
  deriving DecidableEq

/-- JavaScript `split` with a one-character separator, on the characters of a
string: the pieces between the separators, empty pieces included. -/
def split (sep : Char) : List Char → List (List Char)
  | [] => [[]]
  | c :: cs =>
    if c = sep then [] :: split sep cs
    else
      match split sep cs with
      | [] => [[c]]
      | piece :: pieces => (c :: piece) :: pieces

/-- JavaScript truthiness of a value that is `undefined` or a string. -/
def truthy : Option String → Bool
  | none => false
  | some s => s ≠ ""

/-- The value of `authHeader && authHeader.split(' ')[1]`. -/
def tokenOf (authHeader : Option String) : Option String :=
  match authHeader with
  | none => none
  | some h =>
    if truthy (some h) then ((split ' ' h.data)[1]?).map String.mk else some h

/-- `authenticateToken`, server.js 40-51. `verify` is `jwt.verify` with the
configured secret; `authorization` is `req.headers['authorization']`. -/
def authenticateToken (verify : String → Except JwtError Payload)
    (authorization : Option String) : AuthResult :=
  let authHeader := authorization
  let token := tokenOf authHeader
  if !truthy token then .sendStatus 401
  else
    match token with
    | none => .sendStatus 401
    | some t =>
      match verify t with
      | .error _ => .sendStatus 403
      | .ok user => .next user

/-- A verifier that accepts the token `good` alone. -/
def sampleVerify (token : String) : Except JwtError Payload :=
  if token = "good" then .ok ⟨7, 100, 200⟩ else .error .invalid

/-! ## Sample documents -/

/-- A user holding 50 in cash and half a bitcoin. -/
def sampleUser : User :=
  { _id := 1, name := "Ann", email := "ann@example.org", password := "$2a$10$h",
    balance := 50, btcAmount := 1 / 2, transactions := [] }

/-- A user whose BTC holding is below zero. -/
def overdrawnUser : User :=
  { _id := 2, name := "Bob", email := "bob@example.org", password := "$2a$10$k",
    balance := 10, btcAmount := -1, transactions := [] }

/-- A withdraw request being served: the `amount` of its body, its timestamp,
the document `findById` resolved to (once it has) and the response (once
sent). -/
structure InFlight where
  amount : ℚ
  now : Nat
  doc : Option User
  res : Option Response
  deriving DecidableEq

/-- The two requests. -/
inductive Who
  | first
  | second
  deriving DecidableEq

/-- The steps of a request: its read of the stored user and its save. -/
inductive Event
  | read (who : Who)
  | save (who : Who)
  deriving DecidableEq

/-- The stored user and two withdraw requests on it. -/
structure World where
  stored : User
  first : InFlight
  second : InFlight
  deriving DecidableEq

/-- The request of that name. -/
def World.get (w : World) : Who → InFlight
  | .first => w.first
  | .second => w.second

/-- Replace the request of that name. -/
def World.set (w : World) (who : Who) (f : InFlight) : World :=
  match who with
  | .first => { w with first := f }
  | .second => { w with second := f }

/-- One step. `read`: `findById` resolves to the stored user (line 150).
`save`: the handler goes on with the document it read, lines 152-164: below
the guard it answers 400 and saves nothing, otherwise it debits its document,
appends the record, saves the document and answers 200 with its balance. A
step that is out of order (a save before the read, a second read or save of
the same request) is `none`. -/
def step (w : World) : Event → Option World
  | .read who =>
    match (w.get who).doc with
    | some _ => none
    | none => some (w.set who { w.get who with doc := some w.stored })
  | .save who =>
    match (w.get who).doc, (w.get who).res with
    | some user, none =>
      let amount := (w.get who).amount
      if user.balance < amount then
        some (w.set who
          { w.get who with res := some ⟨400, .message "Insufficient funds"⟩ })
      else
        let user1 := { user with balance := user.balance - amount }
        let user2 := { user1 with
          transactions := user1.transactions ++
            [{ type := .withdraw, amount := amount, btcAmount := none, price := none,
               date := (w.get who).now }] }
        some { w.set who { w.get who with res := some ⟨200, .balance user2.balance⟩ } with
          stored := user2 }
    | _, _ => none

/-- A schedule of steps, from left to right. -/
def exec : World → List Event → Option World
  | w, [] => some w
  | w, e :: es =>
    match step w e with
    | some w1 => exec w1 es
    | none => none

/-- Second argument of `interleave`, for a first list `x :: xs` whose tail has
the interleavings `k`. -/
def interleaveAux {α : Type} (x : α) (xs : List α) (k : List α → List (List α)) :
    List α → List (List α)
  | [] => [x :: xs]
  | y :: ys => (k (y :: ys)).map (fun l => x :: l) ++
      (interleaveAux x xs k ys).map (fun l => y :: l)

/-- All the merges of two lists that keep the order within each. -/
def interleave {α : Type} : List α → List α → List (List α)
  | [], ys => [ys]
  | x :: xs, ys => interleaveAux x xs (interleave xs) ys

/-- Every order in which two requests can take their read and save steps. -/
def schedules : List (List Event) :=
  interleave [.read .first, .save .first] [.read .second, .save .second]

/-- A user with balance 100 and two requests to withdraw 60, none started. -/
def raceStart : World :=
  { stored := { sampleUser with balance := 100 }
    first := { amount := 60, now := 1, doc := none, res := none }
    second := { amount := 60, now := 2, doc := none, res := none } }

/-- Status of the first response, status of the second, stored balance, when
both requests have been answered. -/
def World.summary (w : World) : Option (Nat × Nat × ℚ) :=
  match w.first.res, w.second.res with
  | some r1, some r2 => some (r1.status, r2.status, w.stored.balance)
  | _, _ => none

/-! ## Lemmas on the log sums -/

theorem split_of_not_mem (sep : Char) (l : List Char) (h : sep ∉ l) :
    split sep l = [l] := by
  induction l with
  | nil => rfl
  | cons c cs ih =>
    have hc : c ≠ sep := fun e => h (by simp [e])
    have hcs : sep ∉ cs := fun m => h (List.mem_cons_of_mem c m)
    simp [split, hc, ih hcs]

theorem split_append_sep (sep : Char) (l rest : List Char) (h : sep ∉ l) :
    split sep (l ++ sep :: rest) = l :: split sep rest := by
  induction l with
  | nil => simp [split]
  | cons c cs ih =>
    have hc : c ≠ sep := fun e => h (by simp [e])
    have hcs : sep ∉ cs := fun m => h (List.mem_cons_of_mem c m)
    simp [split, hc, ih hcs]

theorem tokenOf_scheme_only (scheme : String) (h : ' ' ∉ scheme.data) :
    truthy (tokenOf (some scheme)) = false := by
  simp only [tokenOf]
  split
  · simp [split_of_not_mem _ _ h, truthy]
  · rename_i hf
    simpa using hf

theorem tokenOf_scheme_space (scheme : String) (h : ' ' ∉ scheme.data) :
    truthy (tokenOf (some (scheme ++ " "))) = false := by
  have hd : (scheme ++ " ").data = scheme.data ++ ' ' :: [] := by
    simp [String.data_append]
  simp only [tokenOf]
  split
  · rw [hd, split_append_sep _ _ _ h]
    simp [split, truthy]
  · rename_i hf
    simpa using hf

theorem tokenOf_scheme_token (scheme tok : String) (hs : ' ' ∉ scheme.data)
    (ht : ' ' ∉ tok.data) : tokenOf (some (scheme ++ " " ++ tok)) = some tok := by
  have hd : (scheme ++ " " ++ tok).data = scheme.data ++ ' ' :: tok.data := by
    simp [String.data_append]
  have htr : truthy (some (scheme ++ " " ++ tok)) = true := by
    simp only [truthy, ne_eq, decide_eq_true_eq]
    intro e
    have := congrArg String.data e
    rw [hd] at this
    simp at this
  unfold tokenOf
  simp only [htr, if_true]
  rw [hd, split_append_sep _ _ _ hs, split_of_not_mem _ _ ht]
  simp

/-! ## Ledger theorems -/

/-- C2: a withdrawal or a purchase whose amount exceeds the balance is answered
400 "Insufficient funds", a sale whose btcAmount exceeds the holding is
answered 400 "Insufficient BTC", and in each case the stored user is the user
as it was: same balance, same holding, same log. -/
theorem insufficient_is_rejected_unchanged (now : Nat) (amount btcAmount btcPrice : ℚ)
    (user : User) :
    (user.balance < amount →
      withdraw now amount user = .responded ⟨400, .message "Insufficient funds"⟩ user) ∧
    (user.balance < amount →
      buyBtc now amount btcPrice user =
        .responded ⟨400, .message "Insufficient funds"⟩ user) ∧
    (user.btcAmount < btcAmount →
      sellBtc now btcAmount btcPrice user =
        .responded ⟨400, .message "Insufficient BTC"⟩ user) := by
  refine ⟨fun h => ?_, fun h => ?_, fun h => ?_⟩
  · simp [withdraw, h]
  · simp [buyBtc, h]
  · simp [sellBtc, h]

/-- Witness of C2: the sample user (balance 50, holding 1/2) asks to withdraw
100, to buy for 100 and to sell 2 BTC. -/
theorem insufficient_is_rejected_unchanged_witness :
    sampleUser.balance < 100 ∧ sampleUser.btcAmount < 2 ∧
    withdraw 3 100 sampleUser =
      .responded ⟨400, .message "Insufficient funds"⟩ sampleUser ∧
    buyBtc 3 100 50000 sampleUser =
      .responded ⟨400, .message "Insufficient funds"⟩ sampleUser ∧
    sellBtc 3 2 50000 sampleUser =
      .responded ⟨400, .message "Insufficient BTC"⟩ sampleUser :=
  have hb : sampleUser.balance < 100 := by norm_num [sampleUser]
  have hq : sampleUser.btcAmount < 2 := by norm_num [sampleUser]
  ⟨hb, hq,
    (insufficient_is_rejected_unchanged 3 100 2 50000 sampleUser).1 hb,
    (insufficient_is_rejected_unchanged 3 100 2 50000 sampleUser).2.1 hb,
    (insufficient_is_rejected_unchanged 3 100 2 50000 sampleUser).2.2 hq⟩

/-- C8, as stated, fails: the overdrawn user (balance 10, holding -1) buys for
10 at price 1, which is accepted and leaves holding 9, and the sale of
10 / 1 BTC at the same price is then rejected with "Insufficient BTC". -/
theorem round_trip_fails_on_negative_holding :
    ((0 : ℚ) < 1 ∧ (0 : ℚ) < 10 ∧ (10 : ℚ) ≤ overdrawnUser.balance) ∧
    buyBtc 1 10 1 overdrawnUser =
      .responded ⟨200, .holdings 0 9⟩
        { overdrawnUser with
          balance := 0
          btcAmount := 9
          transactions :=
            [{ type := .buy, amount := 10, btcAmount := some 10, price := some 1,
               date := 1 }] } ∧
    sellBtc 2 (10 / 1) 1
        { overdrawnUser with
          balance := 0
          btcAmount := 9
          transactions :=
            [{ type := .buy, amount := 10, btcAmount := some 10, price := some 1,
               date := 1 }] } =
      .responded ⟨400, .message "Insufficient BTC"⟩
        { overdrawnUser with
          balance := 0
          btcAmount := 9
          transactions :=
            [{ type := .buy, amount := 10, btcAmount := some 10, price := some 1,
               date := 1 }] } := by
  refine ⟨by norm_num [overdrawnUser], ?_, ?_⟩ <;>
    norm_num [buyBtc, sellBtc, overdrawnUser]

/-- C8, amended: for a user whose btcAmount is >= 0, every price > 0 and every
amount with 0 < amount <= balance, a purchase (amount, price) followed by a
sale (amount / price, same price) are both answered 200, the sale records
proceeds equal to amount, and the user stored afterwards has the balance and
the btcAmount it had before the purchase (rational arithmetic). -/
theorem round_trip_restores_totals (now1 now2 : Nat) (amount btcPrice : ℚ) (user : User)
    (hheld : 0 ≤ user.btcAmount) (hp : 0 < btcPrice) (ha : 0 < amount)
    (hfunds : amount ≤ user.balance) :
    ∃ afterBuy afterSell : User,
      buyBtc now1 amount btcPrice user =
        .responded
          ⟨200, .holdings (user.balance - amount) (user.btcAmount + amount / btcPrice)⟩
          afterBuy ∧
      sellBtc now2 (amount / btcPrice) btcPrice afterBuy =
        .responded ⟨200, .holdings user.balance user.btcAmount⟩ afterSell ∧
      afterSell.balance = user.balance ∧
      afterSell.btcAmount = user.btcAmount ∧
      afterSell.transactions = user.transactions ++
        [{ type := .buy, amount := amount, btcAmount := some (amount / btcPrice),
           price := some btcPrice, date := now1 },
         { type := .sell, amount := amount, btcAmount := some (amount / btcPrice),
           price := some btcPrice, date := now2 }] := by
  have _ := ha
  have hne : btcPrice ≠ 0 := ne_of_gt hp
  have hmul : amount / btcPrice * btcPrice = amount := div_mul_cancel₀ amount hne
  have hguard : ¬ (user.btcAmount + amount / btcPrice < amount / btcPrice) :=
    not_lt.mpr (by linarith)
  refine ⟨{ user with
      balance := user.balance - amount
      btcAmount := user.btcAmount + amount / btcPrice
      transactions := user.transactions ++
        [{ type := .buy, amount := amount, btcAmount := some (amount / btcPrice),
           price := some btcPrice, date := now1 }] },
    { user with
      transactions := user.transactions ++
        [{ type := .buy, amount := amount, btcAmount := some (amount / btcPrice),
           price := some btcPrice, date := now1 },
         { type := .sell, amount := amount, btcAmount := some (amount / btcPrice),
           price := some btcPrice, date := now2 }] }, ?_, ?_, rfl, rfl, rfl⟩
  · simp [buyBtc, not_lt.mpr hfunds, hne]
  · simp only [sellBtc, hguard, if_false, hmul, sub_add_cancel, add_sub_cancel_right,
      List.append_assoc, List.singleton_append]

/-- Witness of the amended C8: the sample user (balance 50, holding 1/2) buys
for 20 at price 40 and sells the 20 / 40 BTC back. -/
theorem round_trip_restores_totals_witness :
    ((0 : ℚ) ≤ sampleUser.btcAmount ∧ (0 : ℚ) < 40 ∧ (0 : ℚ) < 20 ∧
      (20 : ℚ) ≤ sampleUser.balance) ∧
    ∃ afterBuy afterSell : User,
      buyBtc 1 20 40 sampleUser =
        .responded
          ⟨200, .holdings (sampleUser.balance - 20) (sampleUser.btcAmount + 20 / 40)⟩
          afterBuy ∧
      sellBtc 2 (20 / 40) 40 afterBuy =
        .responded ⟨200, .holdings sampleUser.balance sampleUser.btcAmount⟩ afterSell ∧
      afterSell.balance = sampleUser.balance ∧
      afterSell.btcAmount = sampleUser.btcAmount ∧
      afterSell.transactions = sampleUser.transactions ++
        [{ type := .buy, amount := 20, btcAmount := some (20 / 40),
           price := some 40, date := 1 },
         { type := .sell, amount := 20, btcAmount := some (20 / 40),
           price := some 40, date := 2 }] :=
  have h1 : (0 : ℚ) ≤ sampleUser.btcAmount := by norm_num [sampleUser]
  have h2 : (20 : ℚ) ≤ sampleUser.balance := by norm_num [sampleUser]
  ⟨⟨h1, by norm_num, by norm_num, h2⟩,
    round_trip_restores_totals 1 2 20 40 sampleUser h1 (by norm_num) (by norm_num) h2⟩

/-! ## Registration and session theorems -/

/-- C10: without an Authorization header, or with a header that is a scheme
word alone or a scheme word and a space with nothing after it, the middleware
sends 401; with a header `scheme token` whose token fails verification it sends
403; with one whose token verifies it calls the next handler with `req.user`
the verified payload; and the next handler is called only with the payload of
a token taken from the header that verified. -/
theorem authenticate_distinguishes_missing_from_invalid
    (verify : String → Except JwtError Payload) (scheme tok : String)
    (header : Option String) (hs : ' ' ∉ scheme.data) (ht : ' ' ∉ tok.data)
    (hne : tok ≠ "") :
    authenticateToken verify none = .sendStatus 401 ∧
    authenticateToken verify (some scheme) = .sendStatus 401 ∧
    authenticateToken verify (some (scheme ++ " ")) = .sendStatus 401 ∧
    (∀ e, verify tok = .error e →
      authenticateToken verify (some (scheme ++ " " ++ tok)) = .sendStatus 403) ∧
    (∀ user, verify tok = .ok user →
      authenticateToken verify (some (scheme ++ " " ++ tok)) = .next user) ∧
    (∀ user, authenticateToken verify header = .next user →
      ∃ t, tokenOf header = some t ∧ t ≠ "" ∧ verify t = .ok user) ∧
    (authenticateToken verify header = .sendStatus 401 ∨
      authenticateToken verify header = .sendStatus 403 ∨
      ∃ user, authenticateToken verify header = .next user) := by
  have htok := tokenOf_scheme_token scheme tok hs ht
  have htruthy : truthy (some tok) = true := by simp [truthy, hne]
  refine ⟨rfl, ?_, ?_, ?_, ?_, ?_, ?_⟩
  · simp [authenticateToken, tokenOf_scheme_only scheme hs]
  · simp [authenticateToken, tokenOf_scheme_space scheme hs]
  · intro e he
    simp [authenticateToken, htok, htruthy, he]
  · intro user hu
    simp [authenticateToken, htok, htruthy, hu]
  · intro user hnext
    unfold authenticateToken at hnext
    cases hto : tokenOf header with
    | none => simp [hto, truthy] at hnext
    | some t =>
      by_cases hte : t = ""
      · simp [hto, truthy, hte] at hnext
      · cases hv : verify t with
        | error e => simp [hto, truthy, hte, hv] at hnext
        | ok p =>
          simp [hto, truthy, hte, hv] at hnext
          exact ⟨t, rfl, hte, by rw [← hnext]; exact hv⟩
  · unfold authenticateToken
    cases hto : tokenOf header with
    | none => simp [hto, truthy]
    | some t =>
      by_cases hte : t = ""
      · simp [hto, truthy, hte]
      · cases hv : verify t with
        | error e => simp [hto, truthy, hte, hv]
        | ok p => simp [hto, truthy, hte, hv]

/-- Witness of C10: the header `Bearer good` under a verifier that accepts
`good` alone. -/
theorem authenticate_distinguishes_missing_from_invalid_witness :
    (' ' ∉ "Bearer".data ∧ ' ' ∉ "good".data ∧ "good" ≠ "") ∧
    authenticateToken sampleVerify (some ("Bearer" ++ " " ++ "good")) = .next ⟨7, 100, 200⟩ ∧
    authenticateToken sampleVerify (some "Bearer") = .sendStatus 401 :=
  have h := authenticate_distinguishes_missing_from_invalid sampleVerify "Bearer" "good"
    (some "Bearer bad") (by decide) (by decide) (by decide)
  ⟨⟨by decide, by decide, by decide⟩, h.2.2.2.2.1 ⟨7, 100, 200⟩ rfl, h.2.1⟩

/-! ## Concurrent withdrawals -/

/-- C11 evaluated on the code: two requests to withdraw 60 from a user with
balance 100 have six orders of their read and save steps. In the two orders
where one request saves before the other reads, one is answered 200 and the
other 400. In the four orders where both read before either saves, both are
answered 200, and the stored balance is 40 although 120 was paid out. -/
theorem concurrent_withdrawals_both_succeed :
    schedules =
      [[.read .first, .save .first, .read .second, .save .second],
       [.read .first, .read .second, .save .first, .save .second],
       [.read .first, .read .second, .save .second, .save .first],
       [.read .second, .read .first, .save .first, .save .second],
       [.read .second, .read .first, .save .second, .save .first],
       [.read .second, .save .second, .read .first, .save .first]] ∧
    schedules.map (fun s => (exec raceStart s).bind World.summary) =
      [some (200, 400, 40), some (200, 200, 40), some (200, 200, 40),
       some (200, 200, 40), some (200, 200, 40), some (400, 200, 40)] := by
  constructor
  · decide
  · norm_num [schedules, interleave, interleaveAux, exec, step, raceStart, World.get,
      World.set, World.summary, sampleUser]

end Bis
